import Mathlib

/-!
Verification development for the Retell web-client simulated-microphone
audio pipeline.  The definitions below are a shallow embedding of the
TypeScript sources: pure computations (the PCM chunking loop of
`sendAudioProgressively`) become Lean functions on lists, and the stateful
methods (`sendAudioBuffer`, `stopCall`, the data-channel handler) become
explicit state-passing functions that also return the trace of externally
visible effects (publish/unpublish requests, awaited delays, node teardown,
emitted notifications).
-/

namespace Retell

/-- Chunk duration constant from `sendAudioProgressively`: 20 ms of audio. -/
def chunkDurationMs : Nat := 20

/-- `Math.floor((sampleRate * chunkDurationMs) / 1000)` from the source. -/
def chunkSizeInSamples (sampleRate : Nat) : Nat :=
  sampleRate * chunkDurationMs / 1000

/-- `Math.ceil(totalSamples / chunkSizeInSamples)`: ceiling division on
naturals (the source computes it with floating-point `Math.ceil`). -/
def numChunksOf (totalSamples s : Nat) : Nat := (totalSamples + s - 1) / s

/-- The chunk-copy loop of `sendAudioProgressively`: iteration `i` takes
`chunkSize = Math.min(chunkSizeInSamples, totalSamples - offset)` samples
starting at `offset` (`chunkChannelData[j] = channelData[offset + j]`) and
advances `offset` by `chunkSize`.  The first argument of the recursion is
the remaining number of iterations (`numChunks - i`), the second the
current `offset`. -/
def chunkLoop (channelData : List α) (s : Nat) : Nat → Nat → List (List α)
  | 0, _ => []
  | n + 1, offset =>
    let chunkSize := min s (channelData.length - offset)
    ((channelData.drop offset).take chunkSize) ::
      chunkLoop channelData s n (offset + chunkSize)

/-- The ordered list of per-chunk sample arrays produced by
`sendAudioProgressively` for a clip with channel data `channelData` at
`sampleRate`. -/
def progressiveChunks (sampleRate : Nat) (channelData : List α) :
    List (List α) :=
  let s := chunkSizeInSamples sampleRate
  chunkLoop channelData s (numChunksOf channelData.length s) 0

/-- Closed form of the chunk loop: chunk `i` is
`(channelData.drop (offset + i*s)).take s`. -/
theorem chunkLoop_eq_map (channelData : List α) (s : Nat) :
    ∀ n offset, chunkLoop channelData s n offset =
      (List.range n).map (fun i => (channelData.drop (offset + i * s)).take s) := by
  intro n
  induction n with
  | zero => intro offset; simp [chunkLoop]
  | succ n ih =>
    intro offset
    rw [List.range_succ_eq_map]
    simp only [chunkLoop, List.map_cons, List.map_map]
    refine congrArg₂ List.cons ?_ ?_
    · -- head chunk: `take (min s (L - offset)) = take s` on the dropped list
      rw [Nat.zero_mul, Nat.add_zero]
      rcases le_or_lt s (channelData.length - offset) with h | h
      · rw [min_eq_left h]
      · rw [min_eq_right h.le]
        rw [← List.length_drop, List.take_length,
          List.take_of_length_le (by rw [List.length_drop]; exact h.le)]
    · rw [ih]
      apply List.map_congr_left
      intro i _
      simp only [Function.comp]
      rcases le_or_lt s (channelData.length - offset) with h | h
      · rw [min_eq_left h]
        congr 1
        simp only [Nat.succ_eq_add_one]
        ring_nf
      · rw [min_eq_right h.le]
        have h1 : channelData.length ≤ offset + (channelData.length - offset) + i * s := by
          omega
        have h2 : channelData.length ≤ offset + (i + 1) * s := by
          have : i * s + s = (i + 1) * s := by ring
          omega
        rw [List.drop_eq_nil_of_le h1, List.drop_eq_nil_of_le h2]

/-- The lengths of the produced chunks, in closed form. -/
theorem map_length_progressiveChunks (sampleRate : Nat) (data : List α) :
    (progressiveChunks sampleRate data).map List.length =
      (List.range (numChunksOf data.length (chunkSizeInSamples sampleRate))).map
        (fun i => min (chunkSizeInSamples sampleRate)
          (data.length - i * chunkSizeInSamples sampleRate)) := by
  unfold progressiveChunks
  rw [chunkLoop_eq_map, List.map_map]
  apply List.map_congr_left
  intro i _
  simp [List.length_take, List.length_drop]

/-- Concatenating the chunks recovers the suffix of the data from `offset`
onwards, provided the loop runs for enough iterations. -/
theorem flatten_chunkLoop (data : List α) (s : Nat) :
    ∀ n offset, data.length ≤ offset + n * s →
      (chunkLoop data s n offset).flatten = data.drop offset := by
  intro n
  induction n with
  | zero =>
    intro offset h
    rw [Nat.zero_mul, Nat.add_zero] at h
    simp [chunkLoop, List.drop_eq_nil_of_le h]
  | succ n ih =>
    intro offset h
    simp only [chunkLoop, List.flatten_cons]
    have hmul : (n + 1) * s = n * s + s := by ring
    have hoff : data.length ≤ offset + min s (data.length - offset) + n * s := by
      rcases le_or_lt s (data.length - offset) with hc | hc
      · rw [min_eq_left hc]; omega
      · rw [min_eq_right hc.le]; omega
    rw [ih _ hoff, ← List.drop_drop]
    exact List.take_append_drop _ _

/-- `numChunksOf L s` expressed through `L / s` and `L % s`. -/
theorem numChunksOf_eq (L s : Nat) (hs : 0 < s) :
    numChunksOf L s = if L % s = 0 then L / s else L / s + 1 := by
  obtain ⟨q, r, hdm, hmlt, hq, hr⟩ :
      ∃ q r, s * q + r = L ∧ r < s ∧ L / s = q ∧ L % s = r :=
    ⟨L / s, L % s, Nat.div_add_mod L s, Nat.mod_lt _ hs, rfl, rfl⟩
  unfold numChunksOf
  rw [hq, hr]
  subst hdm
  rcases Nat.eq_zero_or_pos r with h0 | h0
  · rw [if_pos h0]
    subst h0
    have h1 : s * q + 0 + s - 1 = s * q + (s - 1) := by omega
    rw [h1, Nat.mul_add_div hs, Nat.div_eq_of_lt (by omega), Nat.add_zero]
  · rw [if_neg (by omega)]
    have h2 : s * (q + 1) = s * q + s := by ring
    have h1 : s * q + r + s - 1 = s * (q + 1) + (r - 1) := by omega
    rw [h1, Nat.mul_add_div hs, Nat.div_eq_of_lt (by omega), Nat.add_zero]

/-- Arithmetic facts about the chunk partition sizes: the clip is covered,
every chunk but the last is full, and the last chunk has `L % s` samples
(a full chunk when `s` divides `L`). -/
theorem chunk_arith (L s : Nat) (hs : 0 < s) :
    L ≤ numChunksOf L s * s ∧
    (∀ i, i + 1 < numChunksOf L s → s ≤ L - i * s) ∧
    (0 < L → min s (L - (numChunksOf L s - 1) * s) =
      if L % s = 0 then s else L % s) ∧
    (0 < L → 0 < numChunksOf L s) := by
  obtain ⟨q, r, hdm, hmlt, hq, hr⟩ :
      ∃ q r, s * q + r = L ∧ r < s ∧ L / s = q ∧ L % s = r :=
    ⟨L / s, L % s, Nat.div_add_mod L s, Nat.mod_lt _ hs, rfl, rfl⟩
  rw [numChunksOf_eq L s hs, hq, hr]
  subst hdm
  refine ⟨?_, ?_, ?_, ?_⟩
  · rcases Nat.eq_zero_or_pos r with h0 | h0
    · rw [if_pos h0]
      have : q * s = s * q := Nat.mul_comm _ _
      omega
    · rw [if_neg (by omega)]
      have : (q + 1) * s = s * q + s := by ring
      omega
  · intro i hi
    have hiq : i + 1 ≤ q := by
      rcases Nat.eq_zero_or_pos r with h0 | h0
      · rw [if_pos h0] at hi; omega
      · rw [if_neg (by omega)] at hi; omega
    have h1 : (i + 1) * s ≤ q * s := Nat.mul_le_mul_right s hiq
    have h2 : (i + 1) * s = i * s + s := by ring
    have h3 : q * s = s * q := Nat.mul_comm _ _
    omega
  · intro hL
    rcases Nat.eq_zero_or_pos r with h0 | h0
    · rw [if_pos h0, if_pos h0]
      subst h0
      rcases Nat.eq_zero_or_pos q with h | h
      · exfalso; subst h; simp at hL
      · have h1 : (q - 1) * s = q * s - 1 * s := Nat.sub_mul q 1 s
        have h2 : 1 * s = s := Nat.one_mul s
        have h3 : q * s = s * q := Nat.mul_comm _ _
        have h4 : s * 1 ≤ s * q := Nat.mul_le_mul (Nat.le_refl s) h
        have h5 : s * 1 = s := by ring
        rw [min_eq_left (by omega)]
    · rw [if_neg (by omega), if_neg (by omega), Nat.add_sub_cancel]
      have h3 : q * s = s * q := Nat.mul_comm _ _
      rw [min_eq_right (by omega)]
      omega
  · intro hL
    rcases Nat.eq_zero_or_pos r with h0 | h0
    · rw [if_pos h0]
      subst h0
      rcases Nat.eq_zero_or_pos q with h | h
      · exfalso; subst h; simp at hL
      · exact h
    · rw [if_neg (by omega)]; omega

/-- The chunk loop performs exactly `numChunks` iterations. -/
theorem length_progressiveChunks (sampleRate : Nat) (data : List α) :
    (progressiveChunks sampleRate data).length =
      numChunksOf data.length (chunkSizeInSamples sampleRate) := by
  unfold progressiveChunks
  rw [chunkLoop_eq_map]
  simp

/-- Length of the `i`-th chunk. -/
theorem length_chunk_get (sampleRate : Nat) (data : List α)
    (i : Nat) (hi : i < (progressiveChunks sampleRate data).length) :
    ((progressiveChunks sampleRate data).get ⟨i, hi⟩).length =
      min (chunkSizeInSamples sampleRate)
        (data.length - i * chunkSizeInSamples sampleRate) := by
  have h2 : ((progressiveChunks sampleRate data).map List.length).get
      ⟨i, by simpa using hi⟩ =
      ((progressiveChunks sampleRate data).get ⟨i, hi⟩).length := by
    simp
  rw [← h2]
  have hmap := map_length_progressiveChunks sampleRate data
  have hi2 : i < ((List.range (numChunksOf data.length
      (chunkSizeInSamples sampleRate))).map
        (fun j => min (chunkSizeInSamples sampleRate)
          (data.length - j * chunkSizeInSamples sampleRate))).length := by
    rw [← hmap]; simpa using hi
  rw [List.get_of_eq hmap ⟨i, by simpa using hi⟩]
  simp

/-- C1: for every clip with `L > 0` samples, chunk size `S = floor(R*20/1000)`
positive, the progressive sender produces exactly `ceil(L/S)` chunks, every
chunk but the last has exactly `S` samples, and the last chunk has `L mod S`
samples (a full chunk when `S` divides `L`); in particular a 0.35 s clip at
24000 Hz gives 17 full chunks of 480 samples plus a final chunk of 240, and a
1.0 s clip at 24000 Hz gives exactly 50 chunks of 480 samples. -/
theorem C1_chunk_partition {α : Type} (sampleRate : Nat) (data : List α)
    (hs : 0 < chunkSizeInSamples sampleRate) (hL : 0 < data.length) :
    (progressiveChunks sampleRate data).length =
      numChunksOf data.length (chunkSizeInSamples sampleRate) ∧
    (∀ i (hi : i < (progressiveChunks sampleRate data).length),
      i + 1 < (progressiveChunks sampleRate data).length →
      ((progressiveChunks sampleRate data).get ⟨i, hi⟩).length =
        chunkSizeInSamples sampleRate) ∧
    (∀ hne : progressiveChunks sampleRate data ≠ [],
      ((progressiveChunks sampleRate data).getLast hne).length =
        if data.length % chunkSizeInSamples sampleRate = 0
        then chunkSizeInSamples sampleRate
        else data.length % chunkSizeInSamples sampleRate) ∧
    (progressiveChunks 24000 (List.replicate 8400 (0 : Int))).map List.length =
      List.replicate 17 480 ++ [240] ∧
    (progressiveChunks 24000 (List.replicate 24000 (0 : Int))).map List.length =
      List.replicate 50 480 := by
  obtain ⟨hcover, hfull, hlast, hpos⟩ :=
    chunk_arith data.length (chunkSizeInSamples sampleRate) hs
  have hlen := length_progressiveChunks sampleRate data
  refine ⟨hlen, ?_, ?_, ?_, ?_⟩
  · intro i hi hi1
    rw [length_chunk_get sampleRate data i hi]
    exact min_eq_left (hfull i (by rw [hlen] at hi1; exact hi1))
  · intro hne
    rw [List.getLast_eq_get, length_chunk_get]
    rw [hlen]
    exact hlast hL
  · rw [map_length_progressiveChunks]
    simp only [List.length_replicate]
    decide
  · rw [map_length_progressiveChunks]
    simp only [List.length_replicate]
    decide

/-- Witness for C1: the hypotheses hold at the 0.35 s / 24000 Hz clip and the
chunk count there is `ceil(8400/480) = 18`. -/
theorem C1_chunk_partition_witness :
    0 < chunkSizeInSamples 24000 ∧ 0 < (List.replicate 8400 (0 : Int)).length ∧
    (progressiveChunks 24000 (List.replicate 8400 (0 : Int))).length =
      numChunksOf (List.replicate 8400 (0 : Int)).length
        (chunkSizeInSamples 24000) :=
  ⟨by decide, by simp only [List.length_replicate]; decide,
    (C1_chunk_partition 24000 (List.replicate 8400 (0 : Int))
      (by decide) (by simp only [List.length_replicate]; decide)).1⟩

/-- C2: concatenating the per-chunk sample arrays in order reproduces the
clip's original sample sequence exactly (round-trip law). -/
theorem C2_chunks_roundtrip {α : Type} (sampleRate : Nat) (data : List α)
    (hs : 0 < chunkSizeInSamples sampleRate) :
    (progressiveChunks sampleRate data).flatten = data := by
  unfold progressiveChunks
  rw [flatten_chunkLoop data _ _ 0
    (by simpa using (chunk_arith data.length _ hs).1), List.drop_zero]

/-- Witness for C2 at a concrete clip. -/
theorem C2_chunks_roundtrip_witness :
    0 < chunkSizeInSamples 24000 ∧
    (progressiveChunks 24000 [(1 : Int), 2, 3]).flatten = [(1 : Int), 2, 3] :=
  ⟨by decide, C2_chunks_roundtrip 24000 [(1 : Int), 2, 3] (by decide)⟩

/-! ## Stateful model of the client

`RetellWebClient`'s mutable fields become an explicit record, each public
method becomes a function from state to state that additionally returns the
ordered list of externally visible effects it caused (requests to the room,
awaited delays, audio-graph teardown, emitted notifications).  Awaited
external operations that can reject (`unpublishTrack`, `resume`,
`getAudioTracks()[0]` yielding no track, `publishTrack`) are driven by an
explicit failure-injection record. -/

/-- An `AudioBuffer`: `samples` is `getChannelData(0)`, `sampleRate` the
buffer's own rate. -/
structure Clip (α : Type) where
  sampleRate : Nat
  samples : List α

/-- State of the simulation-mode `AudioContext`. -/
inductive CtxState where
  | running
  | suspended
  | closed
  deriving DecidableEq

/-- The mutable fields of `RetellWebClient`.  `room` records whether
`this.room` is set (it is removed by `delete this.room` in `stopCall`);
`audioContext = none` means the context was never created or was deleted; a
publication is identified by the counter value its track name was built
from. -/
structure ClientState where
  connected : Bool
  room : Bool
  isAgentTalking : Bool
  analyzerComponent : Bool
  captureAudioFrame : Bool
  audioContext : Option CtxState
  audioTrackCounter : Nat
  currentAudioPublication : Option Nat
  deriving DecidableEq

/-- The state of a freshly constructed client (field initializers). -/
def initialState : ClientState :=
  { connected := false, room := false, isAgentTalking := false,
    analyzerComponent := false, captureAudioFrame := false,
    audioContext := none, audioTrackCounter := 0,
    currentAudioPublication := none }

/-- `simulated_audio_${counter}`: the unique track name built from the
session counter. -/
def trackName (counter : Nat) : String :=
  "simulated_audio_" ++ toString counter

/-- Externally visible effects, in program order.  `unpublish`/`publish`
are requests that actually reach `localParticipant`; `delayMs` is an
awaited `setTimeout`; `scheduleChunk i t` is `source.start` for chunk `i`
at offset `t` ms past the loop's start time. -/
inductive Ev where
  | emitCallEnded
  | roomDisconnect
  | analyzerCleanup
  | cancelFrame
  | unpublish (counter : Nat)
  | publish (counter : Nat)
  | resume
  | delayMs (d : Rat)
  | scheduleChunk (i : Nat) (offsetMs : Rat)
  | disconnectNodes
  | stopTrack
  | closeCtx
  deriving DecidableEq

/-- The fixed settle delay inserted after publishing, before the first
chunk: `await new Promise(resolve => setTimeout(resolve, 200))`. -/
def settleDelayMs : Rat := 200

/-- Per-chunk effects of the loop in `sendAudioProgressively`: chunk `i`
is scheduled at `startTime + (i * chunkDurationMs) / 1000` (an offset of
`i * 20` ms), then the loop awaits `chunkDurationMs` before the next
iteration. -/
def chunkEvents (numChunks : Nat) : List Ev :=
  ((List.range numChunks).map (fun i =>
    [Ev.scheduleChunk i ((i * chunkDurationMs : Nat) : Rat),
     Ev.delayMs ((chunkDurationMs : Nat) : Rat)])).flatten

/-- `((totalSamples % chunkSizeInSamples) || chunkSizeInSamples) /
sampleRate * 1000`: the final chunk's duration in ms (JS `||` turns a zero
remainder into a full chunk). -/
def finalChunkDurationMs (sampleRate s totalSamples : Nat) : Rat :=
  (((if totalSamples % s = 0 then s else totalSamples % s) : Nat) : Rat)
    / (sampleRate : Rat) * 1000

/-- Effect trace of `sendAudioProgressively`: the chunk loop followed by
the final wait `finalChunkDuration + 100`. -/
def progressiveEvents (sampleRate totalSamples : Nat) : List Ev :=
  chunkEvents (numChunksOf totalSamples (chunkSizeInSamples sampleRate)) ++
    [Ev.delayMs (finalChunkDurationMs sampleRate
      (chunkSizeInSamples sampleRate) totalSamples + 100)]

/-- Injected rejection outcomes for the fallible external operations inside
`sendAudioBuffer`.  A failing `unpublishTrack` is caught and only logged by
the source, so `unpublishFails` has no observable consequence beyond the
log; it is kept to document the injection point. -/
structure FailSpec where
  unpublishFails : Bool
  resumeFails : Bool
  trackCreationFails : Bool
  publishFails : Bool
  deriving DecidableEq

/-- Result of one `sendAudioBuffer` call: the settled outcome of the
returned promise, the client state afterwards, and the effect trace. -/
structure SendResult where
  outcome : Except String Unit
  state : ClientState
  trace : List Ev

/-- Continuation of `sendAudioBuffer` (progressive variant) from track
creation onwards: generate the unique track name (incrementing the counter),
publish, settle, stream the chunks, then disconnect the nodes and stop the
track.  `tr` is the trace accumulated so far. -/
def sendAudioBufferPublish {α : Type} (st : ClientState) (f : FailSpec)
    (clip : Clip α) (tr : List Ev) : SendResult :=
  if f.trackCreationFails then
    ⟨Except.error "Failed to create audio track", st, tr⟩
  else
    let c := st.audioTrackCounter
    let st1 := { st with audioTrackCounter := c + 1 }
    if f.publishFails then
      ⟨Except.error "publishTrack failed", st1, tr ++ [Ev.publish c]⟩
    else
      let st2 := { st1 with currentAudioPublication := some c }
      ⟨Except.ok (), st2,
        tr ++ [Ev.publish c, Ev.delayMs settleDelayMs] ++
          progressiveEvents clip.sampleRate clip.samples.length ++
          [Ev.disconnectNodes, Ev.stopTrack]⟩

/-- `sendAudioBuffer` from the progressive (chunked) variant.  The two
guard throws happen before the try block; inside the try, any previous
publication is unpublished (best-effort) and cleared, a suspended context
is resumed, and the remainder is `sendAudioBufferPublish`.  Errors thrown
inside the try are logged and rethrown by the catch, so the outcome is the
first failure.  Teardown (`destination.disconnect(); audioTrack.stop()`)
appears only on the success path, exactly as in the source. -/
def sendAudioBuffer {α : Type} (st : ClientState) (f : FailSpec)
    (clip : Clip α) : SendResult :=
  if st.connected = false then
    ⟨Except.error "Cannot send audio buffer: not connected to call", st, []⟩
  else if st.audioContext = none then
    ⟨Except.error
      "AudioContext not initialized. Make sure to set simulationMode: true in startCall()",
      st, []⟩
  else
    let tr0 : List Ev :=
      match st.currentAudioPublication with
      | some p => [Ev.unpublish p]
      | none => []
    let st0 := { st with currentAudioPublication := none }
    if st0.audioContext = some CtxState.suspended then
      if f.resumeFails then
        ⟨Except.error "resume failed", st0, tr0 ++ [Ev.resume]⟩
      else
        sendAudioBufferPublish
          { st0 with audioContext := some CtxState.running } f clip
          (tr0 ++ [Ev.resume])
    else
      sendAudioBufferPublish st0 f clip tr0

/-- Failure injection for the whole-buffer variant, including the safety
timeout racing natural completion. -/
structure WholeFail where
  unpublishFails : Bool
  resumeFails : Bool
  trackCreationFails : Bool
  publishFails : Bool
  playbackTimesOut : Bool
  deriving DecidableEq

/-- `sendAudioBuffer` from the whole-buffer (non-progressive) variant: one
source for the entire clip, a 400 ms settle delay after publishing, then
playback bounded by a safety timeout of `(duration + 5)` seconds.  The
cleanup closure (disconnect nodes, stop track) runs on natural completion
(`onended`) and on the timeout path (which then rejects); a failure while
creating or publishing the track skips it, exactly as in the source. -/
def sendAudioBufferWhole {α : Type} (st : ClientState) (f : WholeFail)
    (clip : Clip α) : SendResult :=
  if st.connected = false then
    ⟨Except.error "Cannot send audio buffer: not connected to call", st, []⟩
  else if st.audioContext = none then
    ⟨Except.error
      "AudioContext not initialized. Make sure to set simulationMode: true in startCall()",
      st, []⟩
  else
    let tr0 : List Ev :=
      match st.currentAudioPublication with
      | some p => [Ev.unpublish p]
      | none => []
    let st0 := { st with currentAudioPublication := none }
    let step : ClientState × List Ev ⊕ SendResult :=
      if st0.audioContext = some CtxState.suspended then
        if f.resumeFails then
          Sum.inr ⟨Except.error "resume failed", st0, tr0 ++ [Ev.resume]⟩
        else
          Sum.inl ({ st0 with audioContext := some CtxState.running },
            tr0 ++ [Ev.resume])
      else Sum.inl (st0, tr0)
    match step with
    | Sum.inr r => r
    | Sum.inl (st1, tr1) =>
      if f.trackCreationFails then
        ⟨Except.error "Failed to create audio track from buffer", st1, tr1⟩
      else
        let c := st1.audioTrackCounter
        let st2 := { st1 with audioTrackCounter := c + 1 }
        if f.publishFails then
          ⟨Except.error "publishTrack failed", st2, tr1 ++ [Ev.publish c]⟩
        else
          let st3 := { st2 with currentAudioPublication := some c }
          let durationMs : Rat :=
            (clip.samples.length : Rat) / (clip.sampleRate : Rat) * 1000
          if f.playbackTimesOut then
            ⟨Except.error "Audio buffer playback timeout", st3,
              tr1 ++ [Ev.publish c, Ev.delayMs 400,
                Ev.delayMs (durationMs + 5000),
                Ev.disconnectNodes, Ev.stopTrack]⟩
          else
            ⟨Except.ok (), st3,
              tr1 ++ [Ev.publish c, Ev.delayMs 400, Ev.delayMs durationMs,
                Ev.disconnectNodes, Ev.stopTrack]⟩

/-- `stopCall` from the source.  Note that `delete this.room` happens
before the unpublish block, so the later `this.room.localParticipant`
access throws a TypeError that the surrounding try/catch swallows: when the
room was already removed, no unpublish request reaches the room.  A closed
`AudioContext` is kept (only a non-closed one is closed and deleted). -/
def stopCall (st : ClientState) : ClientState × List Ev :=
  if st.connected = false then (st, [])
  else
    let tr0 := [Ev.emitCallEnded] ++ (if st.room then [Ev.roomDisconnect] else [])
    let st0 :=
      { st with connected := false, isAgentTalking := false, room := false }
    let tr1 := tr0 ++ (if st0.analyzerComponent then [Ev.analyzerCleanup] else [])
    let st1 := { st0 with analyzerComponent := false }
    let tr2 := tr1 ++ (if st1.captureAudioFrame then [Ev.cancelFrame] else [])
    let st2 := { st1 with captureAudioFrame := false }
    let tr3 := tr2 ++
      (match st2.currentAudioPublication with
       | some p => if st2.room then [Ev.unpublish p] else []
       | none => [])
    let st3 := { st2 with currentAudioPublication := none }
    let tr4 := tr3 ++
      (match st3.audioContext with
       | some CtxState.closed => []
       | some _ => [Ev.closeCtx]
       | none => [])
    let st4 := { st3 with audioContext :=
      (match st3.audioContext with
       | some CtxState.closed => some CtxState.closed
       | _ => none) }
    ({ st4 with audioTrackCounter := 0 }, tr4)

/-- Notifications emitted to the caller through the event emitter. -/
inductive Notif where
  | update
  | metadata
  | agentStartTalking
  | agentStopTalking
  | nodeTransition
  deriving DecidableEq

/-- Outcome of `TextDecoder.decode` + `JSON.parse` on a data payload:
either the payload is not valid JSON, or it parsed and its `event_type`
field is the given optional string (absent or non-string → `none`). -/
inductive PayloadParse where
  | malformed
  | json (eventType : Option String)
  deriving DecidableEq

/-- The `RoomEvent.DataReceived` handler from `handleDataEvents`: payloads
from participants other than `"server"` are ignored; a JSON parse error is
caught (and logged), emitting nothing; recognized `event_type` values emit
the matching notification, everything else is ignored. -/
def handleDataReceived (st : ClientState) (identity : Option String)
    (payload : PayloadParse) : ClientState × List Notif :=
  if identity ≠ some "server" then (st, [])
  else
    match payload with
    | PayloadParse.malformed => (st, [])
    | PayloadParse.json et =>
      if et = some "update" then (st, [Notif.update])
      else if et = some "metadata" then (st, [Notif.metadata])
      else if et = some "agent_start_talking" then
        ({ st with isAgentTalking := true }, [Notif.agentStartTalking])
      else if et = some "agent_stop_talking" then
        ({ st with isAgentTalking := false }, [Notif.agentStopTalking])
      else if et = some "node_transition" then
        (st, [Notif.nodeTransition])
      else (st, [])

/-- A `stopCall` on a client whose `connected` flag is down returns at the
first guard with no observable effect. -/
theorem stopCall_noop (st : ClientState) (h : st.connected = false) :
    stopCall st = (st, []) := by
  simp [stopCall, h]

/-- After `stopCall`, the `connected` flag is always down. -/
theorem stopCall_connected_false (st : ClientState) :
    (stopCall st).1.connected = false := by
  by_cases h : st.connected = false
  · simp [stopCall, h]
  · simp [stopCall, h]

/-- C5: calling `sendAudioBuffer` while disconnected, or without an
`AudioContext` (session not started in simulation mode), rejects with the
descriptive guard error and mutates nothing: the state — including the
stored publication, the track-name counter and the connected flag — is
returned unchanged and the effect trace is empty (no track, publication or
context is created). -/
theorem C5_precondition_reject {α : Type} (st : ClientState) (f : FailSpec)
    (clip : Clip α) (h : st.connected = false ∨ st.audioContext = none) :
    (st.connected = false →
      (sendAudioBuffer st f clip).outcome =
        Except.error "Cannot send audio buffer: not connected to call") ∧
    (st.connected = true → st.audioContext = none →
      (sendAudioBuffer st f clip).outcome =
        Except.error
          "AudioContext not initialized. Make sure to set simulationMode: true in startCall()") ∧
    (sendAudioBuffer st f clip).state = st ∧
    (sendAudioBuffer st f clip).trace = [] := by
  by_cases hc : st.connected = false
  · simp [sendAudioBuffer, hc]
  · have hc1 : st.connected = true := by simpa using hc
    have hn : st.audioContext = none := by
      rcases h with h | h
      · rw [h] at hc1; cases hc1
      · exact h
    simp [sendAudioBuffer, hc1, hn]

/-- Witness for C5: a never-connected client rejects with unchanged state. -/
theorem C5_precondition_reject_witness :
    (sendAudioBuffer initialState
        ⟨false, false, false, false⟩ (⟨24000, [(0 : Int)]⟩ : Clip Int)).state =
      initialState ∧
    (sendAudioBuffer initialState
        ⟨false, false, false, false⟩ (⟨24000, [(0 : Int)]⟩ : Clip Int)).outcome =
      Except.error "Cannot send audio buffer: not connected to call" :=
  ⟨(C5_precondition_reject initialState ⟨false, false, false, false⟩
      ⟨24000, [(0 : Int)]⟩ (Or.inl rfl)).2.2.1,
    (C5_precondition_reject initialState ⟨false, false, false, false⟩
      ⟨24000, [(0 : Int)]⟩ (Or.inl rfl)).1 rfl⟩

/-- C7: `stopCall` is idempotent — the first call leaves `connected` down,
so an immediately following second call is a no-op (identical state, empty
effect trace: all teardown effects happen exactly once, in the first call),
and `stopCall` on a never-connected client performs no observable effect. -/
theorem C7_stopCall_idempotent (st : ClientState) :
    stopCall (stopCall st).1 = ((stopCall st).1, []) ∧
    (st.connected = false → stopCall st = (st, [])) :=
  ⟨stopCall_noop _ (stopCall_connected_false st), fun h => stopCall_noop st h⟩

/-- Witness for C7: the double call on a concrete connected client, and the
no-op on the never-connected client. -/
theorem C7_stopCall_idempotent_witness :
    stopCall initialState = (initialState, []) :=
  (C7_stopCall_idempotent initialState).2 rfl

/-- The concrete failing input for C8: a connected session holding an
Active Publication. -/
def c8State : ClientState :=
  { connected := true, room := true, isAgentTalking := false,
    analyzerComponent := false, captureAudioFrame := false,
    audioContext := some CtxState.running, audioTrackCounter := 3,
    currentAudioPublication := some 2 }

/-- C8 exhibit (code bug): on a connected session holding an Active
Publication, `stopCall` clears all bookkeeping (stored publication, audio
context, counter), but no unpublish request ever reaches the room's
`unpublishTrack`: `delete this.room` runs before the unpublish block, so
`this.room.localParticipant` throws a TypeError that the surrounding
try/catch swallows. -/
theorem C8_stopCall_unpublish_lost :
    (∀ p, Ev.unpublish p ∉ (stopCall c8State).2) ∧
    (stopCall c8State).2 =
      [Ev.emitCallEnded, Ev.roomDisconnect, Ev.closeCtx] ∧
    (stopCall c8State).1.currentAudioPublication = none ∧
    (stopCall c8State).1.audioContext = none ∧
    (stopCall c8State).1.audioTrackCounter = 0 := by
  refine ⟨?_, rfl, rfl, rfl, rfl⟩
  intro p
  show Ev.unpublish p ∉ [Ev.emitCallEnded, Ev.roomDisconnect, Ev.closeCtx]
  simp

/-- C10: the data-channel handler ignores malformed JSON from `"server"`
(no notification, no state change, no escaping exception — the model's
total function returns normally), ignores recognized-participant payloads
whose `event_type` is outside the five known values, and ignores payloads
from any participant other than `"server"` entirely; in all cases the
`connected` flag is untouched. -/
theorem C10_data_handler_robust (st : ClientState) (identity : Option String)
    (payload : PayloadParse) (et : Option String) :
    handleDataReceived st identity PayloadParse.malformed = (st, []) ∧
    (et ≠ some "update" → et ≠ some "metadata" →
      et ≠ some "agent_start_talking" → et ≠ some "agent_stop_talking" →
      et ≠ some "node_transition" →
      handleDataReceived st identity (PayloadParse.json et) = (st, [])) ∧
    (identity ≠ some "server" →
      handleDataReceived st identity payload = (st, [])) ∧
    (handleDataReceived st identity payload).1.connected = st.connected := by
  by_cases hid : identity = some "server"
  · refine ⟨by simp [handleDataReceived, hid], ?_, ?_, ?_⟩
    · intro h1 h2 h3 h4 h5
      simp [handleDataReceived, hid, h1, h2, h3, h4, h5]
    · intro h; exact absurd hid h
    · cases payload with
      | malformed => simp [handleDataReceived, hid]
      | json et2 =>
        simp only [handleDataReceived, hid]
        split_ifs <;> rfl
  · refine ⟨by simp [handleDataReceived, hid], ?_, ?_, ?_⟩
    · intro _ _ _ _ _; simp [handleDataReceived, hid]
    · intro _; simp [handleDataReceived, hid]
    · simp [handleDataReceived, hid]

/-- Witness for C10: an unknown `event_type` from `"server"` is ignored. -/
theorem C10_data_handler_robust_witness :
    handleDataReceived initialState (some "server")
      (PayloadParse.json (some "bogus")) = (initialState, []) :=
  (C10_data_handler_robust initialState (some "server")
      PayloadParse.malformed (some "bogus")).2.1
    (by decide) (by decide) (by decide) (by decide) (by decide)

/-- A connected simulation-mode session with no publication yet. -/
def simState : ClientState :=
  { connected := true, room := true, isAgentTalking := false,
    analyzerComponent := false, captureAudioFrame := false,
    audioContext := some CtxState.running, audioTrackCounter := 0,
    currentAudioPublication := none }

/-- C4 counterexample: with a rejection injected at `publishTrack`, the
progressive `sendAudioBuffer` rejects but performs no teardown — neither a
node disconnect nor a track stop appears in the effect trace, refuting the
unconditional-teardown claim. -/
theorem C4_counterexample_no_teardown_on_publish_failure :
    (sendAudioBuffer simState ⟨false, false, false, true⟩
        (⟨24000, [(0 : Int)]⟩ : Clip Int)).outcome =
      Except.error "publishTrack failed" ∧
    Ev.disconnectNodes ∉ (sendAudioBuffer simState ⟨false, false, false, true⟩
        (⟨24000, [(0 : Int)]⟩ : Clip Int)).trace ∧
    Ev.stopTrack ∉ (sendAudioBuffer simState ⟨false, false, false, true⟩
        (⟨24000, [(0 : Int)]⟩ : Clip Int)).trace := by
  refine ⟨rfl, ?_, ?_⟩ <;>
    · show ¬ _ ∈ [Ev.publish 0]
      simp

/-- C4 amended: a failure while creating or publishing the track makes the
operation reject WITHOUT any teardown, in both variants; teardown
(disconnect nodes, then stop the track) runs on the progressive variant's
success path, and in the whole-buffer variant on natural completion and on
the safety-timeout path (where the operation still rejects). -/
theorem C4_amended_teardown {α : Type} (st : ClientState) (f : FailSpec)
    (fw : WholeFail) (clip : Clip α)
    (hconn : st.connected = true)
    (hctx : st.audioContext = some CtxState.running) :
    ((f.trackCreationFails = true ∨ f.publishFails = true) →
      (∃ e, (sendAudioBuffer st f clip).outcome = Except.error e) ∧
      Ev.disconnectNodes ∉ (sendAudioBuffer st f clip).trace ∧
      Ev.stopTrack ∉ (sendAudioBuffer st f clip).trace) ∧
    (f.trackCreationFails = false → f.publishFails = false →
      (sendAudioBuffer st f clip).outcome = Except.ok () ∧
      ∃ tr, (sendAudioBuffer st f clip).trace =
        tr ++ [Ev.disconnectNodes, Ev.stopTrack]) ∧
    ((fw.trackCreationFails = true ∨ fw.publishFails = true) →
      (∃ e, (sendAudioBufferWhole st fw clip).outcome = Except.error e) ∧
      Ev.disconnectNodes ∉ (sendAudioBufferWhole st fw clip).trace ∧
      Ev.stopTrack ∉ (sendAudioBufferWhole st fw clip).trace) ∧
    (fw.trackCreationFails = false → fw.publishFails = false →
      (∃ tr, (sendAudioBufferWhole st fw clip).trace =
        tr ++ [Ev.disconnectNodes, Ev.stopTrack]) ∧
      (fw.playbackTimesOut = true →
        (sendAudioBufferWhole st fw clip).outcome =
          Except.error "Audio buffer playback timeout")) := by
  refine ⟨?_, ?_, ?_, ?_⟩
  · intro h
    rcases hp : st.currentAudioPublication with _ | p <;>
      rcases h with h | h <;>
      by_cases htc : f.trackCreationFails = true <;>
      simp_all [sendAudioBuffer, sendAudioBufferPublish, hconn, hctx]
  · intro h1 h2
    rcases hp : st.currentAudioPublication with _ | p
    · simp [sendAudioBuffer, sendAudioBufferPublish, hconn, hctx, hp, h1, h2]
      exact ⟨Ev.publish st.audioTrackCounter :: Ev.delayMs settleDelayMs ::
        progressiveEvents clip.sampleRate clip.samples.length, by simp⟩
    · simp [sendAudioBuffer, sendAudioBufferPublish, hconn, hctx, hp, h1, h2]
      exact ⟨Ev.unpublish p :: Ev.publish st.audioTrackCounter ::
        Ev.delayMs settleDelayMs ::
        progressiveEvents clip.sampleRate clip.samples.length, by simp⟩
  · intro h
    rcases hp : st.currentAudioPublication with _ | p <;>
      rcases h with h | h <;>
      by_cases htc : fw.trackCreationFails = true <;>
      simp_all [sendAudioBufferWhole, hconn, hctx]
  · intro h1 h2
    rcases hp : st.currentAudioPublication with _ | p <;>
      by_cases hto : fw.playbackTimesOut = true <;>
      simp [sendAudioBufferWhole, hconn, hctx, hp, h1, h2, hto]
    · exact ⟨[Ev.publish st.audioTrackCounter, Ev.delayMs 400,
        Ev.delayMs ((clip.samples.length : Rat) / (clip.sampleRate : Rat)
          * 1000 + 5000)], rfl⟩
    · exact ⟨[Ev.publish st.audioTrackCounter, Ev.delayMs 400,
        Ev.delayMs ((clip.samples.length : Rat) / (clip.sampleRate : Rat)
          * 1000)], rfl⟩
    · exact ⟨[Ev.unpublish p, Ev.publish st.audioTrackCounter, Ev.delayMs 400,
        Ev.delayMs ((clip.samples.length : Rat) / (clip.sampleRate : Rat)
          * 1000 + 5000)], rfl⟩
    · exact ⟨[Ev.unpublish p, Ev.publish st.audioTrackCounter, Ev.delayMs 400,
        Ev.delayMs ((clip.samples.length : Rat) / (clip.sampleRate : Rat)
          * 1000)], rfl⟩

/-- Witness for C4 amended: at a concrete connected session, the failure-free
progressive send resolves, and the whole-buffer send on the timeout path
rejects with the timeout error. -/
theorem C4_amended_teardown_witness :
    (sendAudioBuffer simState ⟨false, false, false, false⟩
      (⟨24000, [(0 : Int)]⟩ : Clip Int)).outcome = Except.ok () ∧
    (sendAudioBufferWhole simState ⟨false, false, false, false, true⟩
      (⟨24000, [(0 : Int)]⟩ : Clip Int)).outcome =
        Except.error "Audio buffer playback timeout" :=
  ⟨((C4_amended_teardown simState ⟨false, false, false, false⟩
      ⟨false, false, false, false, true⟩ ⟨24000, [(0 : Int)]⟩ rfl rfl).2.1
        rfl rfl).1,
   ((C4_amended_teardown simState ⟨false, false, false, false⟩
      ⟨false, false, false, false, true⟩ ⟨24000, [(0 : Int)]⟩ rfl rfl).2.2.2
        rfl rfl).2 rfl⟩

/-- Total awaited `setTimeout` time recorded in a trace, in ms. -/
def delaySum : List Ev → Rat
  | [] => 0
  | Ev.delayMs d :: rest => d + delaySum rest
  | _ :: rest => delaySum rest

theorem delaySum_append (a b : List Ev) :
    delaySum (a ++ b) = delaySum a + delaySum b := by
  induction a with
  | nil => simp [delaySum]
  | cons x xs ih =>
    cases x <;> simp [delaySum, ih] <;> ring

theorem delaySum_chunkEvents (n : Nat) :
    delaySum (chunkEvents n) = (n : Rat) * ((chunkDurationMs : Nat) : Rat) := by
  induction n with
  | zero => simp [chunkEvents, delaySum]
  | succ n ih =>
    unfold chunkEvents at ih ⊢
    rw [List.range_succ, List.map_append, List.flatten_append, delaySum_append,
      ih]
    simp [delaySum]
    push_cast
    ring

/-- The final chunk's duration is nonnegative. -/
theorem finalChunkDurationMs_nonneg (sampleRate s totalSamples : Nat) :
    0 ≤ finalChunkDurationMs sampleRate s totalSamples := by
  unfold finalChunkDurationMs
  apply mul_nonneg
  · apply div_nonneg
    · split <;> exact Nat.cast_nonneg _
    · exact Nat.cast_nonneg _
  · norm_num

/-- Chunk-count timing bound: `numChunks * 20 ms` covers the clip's real
duration `L / R * 1000` ms. -/
theorem clip_duration_le_chunk_time (L R : Nat)
    (hs : 0 < chunkSizeInSamples R) :
    L * 1000 ≤ numChunksOf L (chunkSizeInSamples R) * (20 * R) := by
  have h1 : L ≤ numChunksOf L (chunkSizeInSamples R) * chunkSizeInSamples R :=
    (chunk_arith L (chunkSizeInSamples R) hs).1
  have h2 : chunkSizeInSamples R * 1000 ≤ 20 * R := by
    have h3 := Nat.div_mul_le_self (R * 20) 1000
    unfold chunkSizeInSamples chunkDurationMs
    omega
  calc L * 1000
      ≤ numChunksOf L (chunkSizeInSamples R) * chunkSizeInSamples R * 1000 :=
        Nat.mul_le_mul h1 (Nat.le_refl 1000)
    _ = numChunksOf L (chunkSizeInSamples R) * (chunkSizeInSamples R * 1000) := by
        ring
    _ ≤ numChunksOf L (chunkSizeInSamples R) * (20 * R) :=
        Nat.mul_le_mul (Nat.le_refl _) h2

/-- The total delay awaited from the settle delay onwards on the success
path covers the settle delay, the clip's duration and the 100 ms tail. -/
theorem settle_plus_duration_le_delaySum (R L : Nat)
    (hs : 0 < chunkSizeInSamples R) :
    settleDelayMs + (L : Rat) / (R : Rat) * 1000 + 100 ≤
      delaySum (Ev.delayMs settleDelayMs ::
        (progressiveEvents R L ++ [Ev.disconnectNodes, Ev.stopTrack])) := by
  have hR : 0 < R := by
    unfold chunkSizeInSamples chunkDurationMs at hs
    omega
  have hRq : (0 : Rat) < (R : Rat) := by exact_mod_cast hR
  have hkey : (L : Rat) / (R : Rat) * 1000 ≤
      (numChunksOf L (chunkSizeInSamples R) : Rat) *
        ((chunkDurationMs : Nat) : Rat) := by
    rw [div_mul_eq_mul_div, div_le_iff hRq]
    have h := clip_duration_le_chunk_time L R hs
    have hq : ((L * 1000 : Nat) : Rat) ≤
        ((numChunksOf L (chunkSizeInSamples R) * (20 * R) : Nat) : Rat) :=
      Nat.cast_le.mpr h
    push_cast at hq
    calc (L : Rat) * 1000 ≤
        (numChunksOf L (chunkSizeInSamples R) : Rat) * (20 * (R : Rat)) := hq
      _ = (numChunksOf L (chunkSizeInSamples R) : Rat) *
            ((chunkDurationMs : Nat) : Rat) * (R : Rat) := by
          unfold chunkDurationMs
          push_cast
          ring
  have hfin := finalChunkDurationMs_nonneg R (chunkSizeInSamples R) L
  show settleDelayMs + (L : Rat) / (R : Rat) * 1000 + 100 ≤
    settleDelayMs + delaySum (progressiveEvents R L ++
      [Ev.disconnectNodes, Ev.stopTrack])
  rw [delaySum_append]
  unfold progressiveEvents
  rw [delaySum_append, delaySum_chunkEvents]
  simp only [delaySum]
  linarith

/-- C6: on a successful progressive send, the fixed settle delay (200 ms,
within the required 150–400 ms range) is awaited immediately after the
publish request and before any chunk is scheduled, and the total awaited
delay from the publish onwards is at least settle delay + (sum of all chunk
durations, i.e. the clip's duration in ms) + the 100 ms final tail margin,
so the promise resolves no earlier than that. -/
theorem C6_settle_and_duration {α : Type} (st : ClientState) (f : FailSpec)
    (clip : Clip α)
    (hconn : st.connected = true)
    (hctx : st.audioContext = some CtxState.running)
    (htc : f.trackCreationFails = false) (hpf : f.publishFails = false)
    (hs : 0 < chunkSizeInSamples clip.sampleRate) :
    (150 : Rat) ≤ settleDelayMs ∧ settleDelayMs ≤ 400 ∧
    ∃ pre post,
      (sendAudioBuffer st f clip).trace =
        pre ++ Ev.publish st.audioTrackCounter ::
          Ev.delayMs settleDelayMs :: post ∧
      (∀ i t, Ev.scheduleChunk i t ∉ pre) ∧
      settleDelayMs + (clip.samples.length : Rat) / (clip.sampleRate : Rat)
          * 1000 + 100 ≤
        delaySum (Ev.delayMs settleDelayMs :: post) := by
  refine ⟨by norm_num [settleDelayMs], by norm_num [settleDelayMs], ?_⟩
  rcases hp : st.currentAudioPublication with _ | p
  · refine ⟨[], progressiveEvents clip.sampleRate clip.samples.length ++
      [Ev.disconnectNodes, Ev.stopTrack], ?_, by simp, ?_⟩
    · simp [sendAudioBuffer, sendAudioBufferPublish, hconn, hctx, hp, htc, hpf]
    · exact settle_plus_duration_le_delaySum clip.sampleRate
        clip.samples.length hs
  · refine ⟨[Ev.unpublish p],
      progressiveEvents clip.sampleRate clip.samples.length ++
      [Ev.disconnectNodes, Ev.stopTrack], ?_, by simp, ?_⟩
    · simp [sendAudioBuffer, sendAudioBufferPublish, hconn, hctx, hp, htc, hpf]
    · exact settle_plus_duration_le_delaySum clip.sampleRate
        clip.samples.length hs

/-- Witness for C6 at a concrete clip (0.35 s at 24000 Hz). -/
theorem C6_settle_and_duration_witness :
    (150 : Rat) ≤ settleDelayMs ∧ settleDelayMs ≤ 400 ∧
    ∃ pre post,
      (sendAudioBuffer simState ⟨false, false, false, false⟩
        (⟨24000, List.replicate 8400 (0 : Int)⟩ : Clip Int)).trace =
        pre ++ Ev.publish simState.audioTrackCounter ::
          Ev.delayMs settleDelayMs :: post ∧
      (∀ i t, Ev.scheduleChunk i t ∉ pre) ∧
      settleDelayMs + ((List.replicate 8400 (0 : Int)).length : Rat) /
          ((24000 : Nat) : Rat) * 1000 + 100 ≤
        delaySum (Ev.delayMs settleDelayMs :: post) :=
  C6_settle_and_duration simState ⟨false, false, false, false⟩
    (⟨24000, List.replicate 8400 (0 : Int)⟩ : Clip Int)
    rfl rfl rfl rfl (by decide)

/-- The counter carried by a publish request, if the event is one. -/
def pubCounterOf : Ev → Option Nat
  | Ev.publish c => some c
  | _ => none

/-- The counters of the publish requests in a trace, in order. -/
def publishCounters (tr : List Ev) : List Nat := tr.filterMap pubCounterOf

/-- Replay of the `currentAudioPublication` field over a trace: the
unpublish block always ends by clearing the field (even when the request
failed), and a publish stores the new publication. -/
def replayPub : Option Nat → List Ev → Option Nat
  | cur, [] => cur
  | _, Ev.unpublish _ :: rest => replayPub none rest
  | _, Ev.publish c :: rest => replayPub (some c) rest
  | cur, Ev.emitCallEnded :: rest => replayPub cur rest
  | cur, Ev.roomDisconnect :: rest => replayPub cur rest
  | cur, Ev.analyzerCleanup :: rest => replayPub cur rest
  | cur, Ev.cancelFrame :: rest => replayPub cur rest
  | cur, Ev.resume :: rest => replayPub cur rest
  | cur, Ev.delayMs _ :: rest => replayPub cur rest
  | cur, Ev.scheduleChunk _ _ :: rest => replayPub cur rest
  | cur, Ev.disconnectNodes :: rest => replayPub cur rest
  | cur, Ev.stopTrack :: rest => replayPub cur rest
  | cur, Ev.closeCtx :: rest => replayPub cur rest

theorem publishCounters_chunkEvents (n : Nat) :
    publishCounters (chunkEvents n) = [] := by
  induction n with
  | zero => rfl
  | succ n ih =>
    unfold chunkEvents at ih ⊢
    rw [List.range_succ, List.map_append, List.flatten_append]
    unfold publishCounters at ih ⊢
    rw [List.filterMap_append, ih]
    rfl

theorem publishCounters_progressiveEvents (R L : Nat) :
    publishCounters (progressiveEvents R L) = [] := by
  unfold progressiveEvents publishCounters
  rw [List.filterMap_append]
  have h := publishCounters_chunkEvents
    (numChunksOf L (chunkSizeInSamples R))
  unfold publishCounters at h
  rw [h]
  rfl

/-- Splitting a list at an element kept by `filterMap`, when the part
before it is dropped entirely, is unambiguous. -/
theorem filterMap_nil_split {β γ : Type} (g : β → Option γ) :
    ∀ (a a' : List β) (b b' : β) (r r' : List β),
      a ++ b :: r = a' ++ b' :: r' →
      g b ≠ none → g b' ≠ none →
      List.filterMap g a = [] → List.filterMap g a' = [] →
      a = a' ∧ b = b' ∧ r = r' := by
  intro a
  induction a with
  | nil =>
    intro a' b b' r r' h hb hb' hc hc'
    cases a' with
    | nil =>
      rw [List.nil_append, List.nil_append] at h
      injection h with h1 h2
      exact ⟨rfl, h1, h2⟩
    | cons x xs =>
      exfalso
      rw [List.nil_append, List.cons_append] at h
      injection h with h1 h2
      rw [List.filterMap_cons] at hc'
      rcases hgx : g x with _ | v
      · exact hb (h1 ▸ hgx)
      · rw [hgx] at hc'
        exact List.cons_ne_nil _ _ hc'
  | cons x xs ih =>
    intro a' b b' r r' h hb hb' hc hc'
    cases a' with
    | nil =>
      exfalso
      rw [List.nil_append, List.cons_append] at h
      injection h with h1 h2
      rw [List.filterMap_cons] at hc
      rcases hgx : g x with _ | v
      · exact hb' (h1.symm ▸ hgx)
      · rw [hgx] at hc
        exact List.cons_ne_nil _ _ hc
    | cons y ys =>
      rw [List.cons_append, List.cons_append] at h
      injection h with h1 h2
      rw [List.filterMap_cons] at hc hc'
      rcases hgx : g x with _ | v
      · rw [hgx] at hc
        rcases hgy : g y with _ | w
        · rw [hgy] at hc'
          obtain ⟨e1, e2, e3⟩ := ih ys b b' r r' h2 hb hb' hc hc'
          exact ⟨by rw [h1, e1], e2, e3⟩
        · rw [hgy] at hc'
          exact absurd hc' (List.cons_ne_nil _ _)
      · rw [hgx] at hc
        exact absurd hc (List.cons_ne_nil _ _)

/-- Shape of the publish continuation: either it fails before the publish
request (trace unchanged, counter unchanged, rejected), or the trace is the
prefix followed by exactly one publish request built from the entry counter,
with no further publish afterwards, and the counter incremented. -/
theorem sendAudioBufferPublish_shape {α : Type} (st0 : ClientState)
    (f : FailSpec) (clip : Clip α) (tr : List Ev) :
    ((sendAudioBufferPublish st0 f clip tr).trace = tr ∧
      (sendAudioBufferPublish st0 f clip tr).outcome ≠ Except.ok () ∧
      (sendAudioBufferPublish st0 f clip tr).state.audioTrackCounter =
        st0.audioTrackCounter) ∨
    (∃ post, (sendAudioBufferPublish st0 f clip tr).trace =
        tr ++ Ev.publish st0.audioTrackCounter :: post ∧
      publishCounters post = [] ∧
      (sendAudioBufferPublish st0 f clip tr).state.audioTrackCounter =
        st0.audioTrackCounter + 1) := by
  by_cases htc : f.trackCreationFails = true
  · left
    simp [sendAudioBufferPublish, htc]
  · right
    by_cases hpf : f.publishFails = true
    · refine ⟨[], ?_, rfl, ?_⟩ <;> simp [sendAudioBufferPublish, htc, hpf]
    · refine ⟨Ev.delayMs settleDelayMs ::
        (progressiveEvents clip.sampleRate clip.samples.length ++
          [Ev.disconnectNodes, Ev.stopTrack]), ?_, ?_, ?_⟩
      · simp [sendAudioBufferPublish, htc, hpf]
      · unfold publishCounters
        rw [List.filterMap_cons]
        have h := publishCounters_progressiveEvents clip.sampleRate
          clip.samples.length
        unfold publishCounters at h
        rw [show pubCounterOf (Ev.delayMs settleDelayMs) = none from rfl,
          List.filterMap_append, h]
        rfl
      · simp [sendAudioBufferPublish, htc, hpf]

/-- Shape of a full `sendAudioBuffer` run: either no publish request is made
(and the operation rejects with the counter untouched), or the trace splits
as `tr ++ publish(counter) :: post` where `tr` holds no publish request,
`post` holds no further publish request, replaying `tr` over the entry
publication leaves it cleared, and `tr` carries an unpublish request for the
publication stored at entry, if any; the counter is incremented once. -/
theorem sendAudioBuffer_publish_shape {α : Type} (st : ClientState)
    (f : FailSpec) (clip : Clip α) :
    (publishCounters (sendAudioBuffer st f clip).trace = [] ∧
      (sendAudioBuffer st f clip).outcome ≠ Except.ok () ∧
      (sendAudioBuffer st f clip).state.audioTrackCounter =
        st.audioTrackCounter) ∨
    (∃ tr post, (sendAudioBuffer st f clip).trace =
        tr ++ Ev.publish st.audioTrackCounter :: post ∧
      publishCounters tr = [] ∧ publishCounters post = [] ∧
      replayPub st.currentAudioPublication tr = none ∧
      (∀ p, st.currentAudioPublication = some p → Ev.unpublish p ∈ tr) ∧
      (sendAudioBuffer st f clip).state.audioTrackCounter =
        st.audioTrackCounter + 1) := by
  by_cases hc : st.connected = false
  · left
    simp [sendAudioBuffer, hc, publishCounters]
  · have hc1 : st.connected = true := by simpa using hc
    rcases hctx : st.audioContext with _ | ctx
    · left
      simp [sendAudioBuffer, hc1, hctx, publishCounters]
    · rcases hp : st.currentAudioPublication with _ | p
      · by_cases hsusp : ctx = CtxState.suspended
        · subst hsusp
          by_cases hrf : f.resumeFails = true
          · left
            simp [sendAudioBuffer, hc1, hctx, hp, hrf, publishCounters,
              pubCounterOf]
          · have heq : sendAudioBuffer st f clip =
                sendAudioBufferPublish
                  { st with currentAudioPublication := none, audioContext := some CtxState.running } f clip
                  [Ev.resume] := by
              simp [sendAudioBuffer, hc1, hctx, hp, hrf]
            rcases sendAudioBufferPublish_shape
                { st with currentAudioPublication := none, audioContext := some CtxState.running } f clip
                [Ev.resume] with ⟨h1, h2, h3⟩ | ⟨post, h1, h2, h3⟩
            · left
              rw [heq, h1]
              exact ⟨rfl, h2, h3⟩
            · right
              refine ⟨[Ev.resume], post, ?_, rfl, h2, ?_, ?_, ?_⟩
              · rw [heq, h1]
              · rfl
              · intro q hq; simp at hq
              · rw [heq, h3]
        · have heq : sendAudioBuffer st f clip =
              sendAudioBufferPublish
                { st with currentAudioPublication := none } f clip [] := by
            have hne : st.audioContext ≠ some CtxState.suspended := by
              rw [hctx]; intro h; injection h with h; exact hsusp h
            simp [sendAudioBuffer, hc1, hctx, hp]
            intro h
            exact absurd (hctx.trans (by rw [h])) hne
          rcases sendAudioBufferPublish_shape
              { st with currentAudioPublication := none } f clip []
              with ⟨h1, h2, h3⟩ | ⟨post, h1, h2, h3⟩
          · left
            rw [heq, h1]
            exact ⟨rfl, h2, h3⟩
          · right
            refine ⟨[], post, ?_, rfl, h2, ?_, ?_, ?_⟩
            · rw [heq, h1]
            · rfl
            · intro q hq; simp at hq
            · rw [heq, h3]
      · by_cases hsusp : ctx = CtxState.suspended
        · subst hsusp
          by_cases hrf : f.resumeFails = true
          · left
            simp [sendAudioBuffer, hc1, hctx, hp, hrf, publishCounters,
              pubCounterOf]
          · have heq : sendAudioBuffer st f clip =
                sendAudioBufferPublish
                  { st with currentAudioPublication := none, audioContext := some CtxState.running } f clip
                  [Ev.unpublish p, Ev.resume] := by
              simp [sendAudioBuffer, hc1, hctx, hp, hrf]
            rcases sendAudioBufferPublish_shape
                { st with currentAudioPublication := none, audioContext := some CtxState.running } f clip
                [Ev.unpublish p, Ev.resume]
                with ⟨h1, h2, h3⟩ | ⟨post, h1, h2, h3⟩
            · left
              rw [heq, h1]
              exact ⟨rfl, h2, h3⟩
            · right
              refine ⟨[Ev.unpublish p, Ev.resume], post, ?_, rfl, h2, ?_,
                ?_, ?_⟩
              · rw [heq, h1]
              · rfl
              · intro q hq
                injection hq with hq
                subst hq
                simp
              · rw [heq, h3]
        · have heq : sendAudioBuffer st f clip =
              sendAudioBufferPublish
                { st with currentAudioPublication := none } f clip
                [Ev.unpublish p] := by
            have hne : st.audioContext ≠ some CtxState.suspended := by
              rw [hctx]; intro h; injection h with h; exact hsusp h
            simp [sendAudioBuffer, hc1, hctx, hp]
            intro h
            exact absurd (hctx.trans (by rw [h])) hne
          rcases sendAudioBufferPublish_shape
              { st with currentAudioPublication := none } f clip
              [Ev.unpublish p]
              with ⟨h1, h2, h3⟩ | ⟨post, h1, h2, h3⟩
          · left
            rw [heq, h1]
            refine ⟨?_, h2, h3⟩
            simp [publishCounters, pubCounterOf]
          · right
            refine ⟨[Ev.unpublish p], post, ?_, rfl, h2, ?_, ?_, ?_⟩
            · rw [heq, h1]
            · rfl
            · intro q hq
              injection hq with hq
              subst hq
              simp
            · rw [heq, h3]

/-- C3: each `sendAudioBuffer` invocation makes at most one publish
request (exactly one when it resolves successfully), and for every way the
trace splits at a publish request, replaying the prefix over the stored
publication at entry yields `none` — zero recorded simulated publications
immediately before `publishTrack` — and, when a publication was stored at
entry, an unpublish request for exactly that publication appears in the
prefix before the publish. -/
theorem C3_at_most_one_publication {α : Type} (st : ClientState)
    (f : FailSpec) (clip : Clip α) :
    (publishCounters (sendAudioBuffer st f clip).trace).length ≤ 1 ∧
    ((sendAudioBuffer st f clip).outcome = Except.ok () →
      (publishCounters (sendAudioBuffer st f clip).trace).length = 1) ∧
    (∀ pre c post, (sendAudioBuffer st f clip).trace =
        pre ++ Ev.publish c :: post →
      replayPub st.currentAudioPublication pre = none ∧
      (∀ p, st.currentAudioPublication = some p → Ev.unpublish p ∈ pre)) := by
  rcases sendAudioBuffer_publish_shape st f clip with
    ⟨h1, h2, _⟩ | ⟨tr, post, htr, htrpc, hpostpc, hreplay, hunp, _⟩
  · refine ⟨by rw [h1]; simp, fun hok => absurd hok h2, ?_⟩
    intro pre c post2 heq
    exfalso
    have hmem : c ∈ publishCounters (sendAudioBuffer st f clip).trace := by
      rw [heq]
      unfold publishCounters
      rw [List.filterMap_append, List.filterMap_cons]
      rw [show pubCounterOf (Ev.publish c) = some c from rfl]
      exact List.mem_append_right _ (List.mem_cons_self _ _)
    rw [h1] at hmem
    simp at hmem
  · have hTpc : publishCounters (sendAudioBuffer st f clip).trace =
        [st.audioTrackCounter] := by
      rw [htr]
      unfold publishCounters at *
      rw [List.filterMap_append, htrpc, List.filterMap_cons]
      rw [show pubCounterOf (Ev.publish st.audioTrackCounter) =
        some st.audioTrackCounter from rfl, hpostpc]
      rfl
    refine ⟨by rw [hTpc]; simp, fun _ => by rw [hTpc]; simp, ?_⟩
    intro pre c post2 heq
    have hdec : publishCounters pre ++ c :: publishCounters post2 =
        [st.audioTrackCounter] := by
      rw [← hTpc, heq]
      unfold publishCounters
      rw [List.filterMap_append, List.filterMap_cons]
      rfl
    have hprelen : (publishCounters pre).length = 0 := by
      have := congrArg List.length hdec
      simp at this
      omega
    have hpre : publishCounters pre = [] := List.length_eq_zero.mp hprelen
    obtain ⟨e1, _, _⟩ := filterMap_nil_split pubCounterOf pre tr
      (Ev.publish c) (Ev.publish st.audioTrackCounter) post2 post
      (heq.symm.trans htr) (by intro h; cases h) (by intro h; cases h)
      hpre htrpc
    subst e1
    exact ⟨hreplay, hunp⟩

/-- Witness for C3 at a concrete state holding a prior publication. -/
theorem C3_at_most_one_publication_witness :
    (publishCounters (sendAudioBuffer c8State ⟨false, false, false, false⟩
      (⟨24000, [(0 : Int)]⟩ : Clip Int)).trace).length = 1 :=
  (C3_at_most_one_publication c8State ⟨false, false, false, false⟩
    (⟨24000, [(0 : Int)]⟩ : Clip Int)).2.1 rfl

/-- Either branch of one send: no publish request and an unchanged counter,
or exactly the publish request for the entry counter value and the counter
incremented. -/
theorem sendAudioBuffer_counter_cases {α : Type} (st : ClientState)
    (f : FailSpec) (clip : Clip α) :
    (publishCounters (sendAudioBuffer st f clip).trace = [] ∧
      (sendAudioBuffer st f clip).state.audioTrackCounter =
        st.audioTrackCounter) ∨
    (publishCounters (sendAudioBuffer st f clip).trace =
        [st.audioTrackCounter] ∧
      (sendAudioBuffer st f clip).state.audioTrackCounter =
        st.audioTrackCounter + 1) := by
  rcases sendAudioBuffer_publish_shape st f clip with
    ⟨h1, _, h3⟩ | ⟨tr, post, htr, htrpc, hpostpc, _, _, hcnt⟩
  · exact Or.inl ⟨h1, h3⟩
  · refine Or.inr ⟨?_, hcnt⟩
    rw [htr]
    unfold publishCounters at *
    rw [List.filterMap_append, htrpc, List.filterMap_cons]
    rw [show pubCounterOf (Ev.publish st.audioTrackCounter) =
      some st.audioTrackCounter from rfl, hpostpc]
    rfl

/-- Sequential execution of several `sendAudioBuffer` calls in one session
(no intervening `stopCall`), accumulating the effect traces. -/
def runSends {α : Type} : ClientState → List (FailSpec × Clip α) →
    ClientState × List Ev
  | st, [] => (st, [])
  | st, (f, clip) :: rest =>
    let r := sendAudioBuffer st f clip
    let rr := runSends r.state rest
    (rr.1, r.trace ++ rr.2)

/-- Across a run of sends, every published counter is at least the starting
counter, the counter never decreases, and the published counters are
strictly increasing. -/
theorem runSends_counters {α : Type} (ops : List (FailSpec × Clip α)) :
    ∀ st : ClientState,
      (∀ x ∈ publishCounters (runSends st ops).2, st.audioTrackCounter ≤ x) ∧
      st.audioTrackCounter ≤ (runSends st ops).1.audioTrackCounter ∧
      (publishCounters (runSends st ops).2).Pairwise (· < ·) := by
  induction ops with
  | nil =>
    intro st
    refine ⟨?_, Nat.le_refl _, ?_⟩ <;> simp [runSends, publishCounters]
  | cons op rest ih =>
    intro st
    obtain ⟨f, clip⟩ := op
    obtain ⟨ih1, ih2, ih3⟩ := ih (sendAudioBuffer st f clip).state
    have happ : publishCounters ((sendAudioBuffer st f clip).trace ++
        (runSends (sendAudioBuffer st f clip).state rest).2) =
        publishCounters (sendAudioBuffer st f clip).trace ++
        publishCounters (runSends (sendAudioBuffer st f clip).state rest).2 :=
      List.filterMap_append _ _ _
    show (∀ x ∈ publishCounters ((sendAudioBuffer st f clip).trace ++
        (runSends (sendAudioBuffer st f clip).state rest).2),
        st.audioTrackCounter ≤ x) ∧
      st.audioTrackCounter ≤
        (runSends (sendAudioBuffer st f clip).state rest).1.audioTrackCounter ∧
      (publishCounters ((sendAudioBuffer st f clip).trace ++
        (runSends (sendAudioBuffer st f clip).state rest).2)).Pairwise (· < ·)
    rcases sendAudioBuffer_counter_cases st f clip with ⟨h1, h2⟩ | ⟨h1, h2⟩
    · rw [happ, h1, List.nil_append]
      rw [h2] at ih1 ih2
      exact ⟨ih1, ih2, ih3⟩
    · rw [happ, h1, List.singleton_append]
      rw [h2] at ih1 ih2
      refine ⟨?_, by omega, ?_⟩
      · intro x hx
        rcases List.mem_cons.mp hx with hx | hx
        · omega
        · have := ih1 x hx
          omega
      · rw [List.pairwise_cons]
        refine ⟨?_, ih3⟩
        intro y hy
        have := ih1 y hy
        omega

/-- C9: the counter suffixes of the simulated publications in one session
run are strictly increasing, hence no suffix ever repeats a previously used
value and each publication's `trackName` differs from every other (checked
name-for-name on a concrete three-send run); a send never resets the counter
(it keeps or increments it), the data-channel handler never touches it, and
only full teardown (`stopCall` on a connected session) resets it to its
initial value 0. -/
theorem C9_unique_track_names {α : Type} (st : ClientState)
    (ops : List (FailSpec × Clip α)) (f : FailSpec) (clip : Clip α)
    (identity : Option String) (payload : PayloadParse) :
    (publishCounters (runSends st ops).2).Pairwise (· < ·) ∧
    (publishCounters (runSends st ops).2).Pairwise (· ≠ ·) ∧
    ((sendAudioBuffer st f clip).state.audioTrackCounter =
        st.audioTrackCounter ∨
      (sendAudioBuffer st f clip).state.audioTrackCounter =
        st.audioTrackCounter + 1) ∧
    (handleDataReceived st identity payload).1.audioTrackCounter =
      st.audioTrackCounter ∧
    (st.connected = true → (stopCall st).1.audioTrackCounter = 0) ∧
    initialState.audioTrackCounter = 0 ∧
    ((publishCounters (runSends simState
        [(⟨false, false, false, false⟩, (⟨24000, [(0 : Int)]⟩ : Clip Int)),
         (⟨false, false, false, false⟩, ⟨24000, [(0 : Int)]⟩),
         (⟨false, false, false, false⟩, ⟨24000, [(0 : Int)]⟩)]).2).map
      trackName).Pairwise (· ≠ ·) := by
  obtain ⟨_, _, hpw⟩ := runSends_counters ops st
  refine ⟨hpw, hpw.imp Nat.ne_of_lt, ?_, ?_, ?_, rfl, ?_⟩
  · rcases sendAudioBuffer_counter_cases st f clip with ⟨_, h⟩ | ⟨_, h⟩
    · exact Or.inl h
    · exact Or.inr h
  · by_cases hid : identity = some "server"
    · cases payload with
      | malformed => simp [handleDataReceived, hid]
      | json et =>
        simp only [handleDataReceived, hid]
        split_ifs <;> rfl
    · simp [handleDataReceived, hid]
  · intro h
    simp [stopCall, h]
  · decide

/-- Witness for C9: teardown on a concrete connected session resets the
counter. -/
theorem C9_unique_track_names_witness :
    (stopCall simState).1.audioTrackCounter = 0 :=
  (C9_unique_track_names simState ([] : List (FailSpec × Clip Int))
    ⟨false, false, false, false⟩ ⟨24000, [(0 : Int)]⟩ none
    PayloadParse.malformed).2.2.2.2.1 rfl

end Retell
